import Mathlib

/-!
Verification development for the bit-auto market-data relay.

The repository is a small TypeScript service (`apps/api/src/server.ts`, a
Fastify server) plus Next.js route handlers (`apps/web/app/api/...`). The
definitions below are a shallow embedding of the functions the claims are
about:

* JavaScript numbers are modelled by `JSNum`: either a finite rational or
  one of the non-finite values `NaN`, `+Infinity`, `-Infinity`. Exact
  rationals stand in for IEEE doubles; none of the claims depends on
  floating-point rounding.
* Timestamps (`Date.now()` values, milliseconds) are `Nat`.
* `fetch` results are passed in as explicit `Except` parameters: an `.ok`
  value is a response that was fetched, parsed and validated successfully,
  an `.error` is any throw on that path (HTTP error, network failure,
  parse failure). Successive `Date.now()` reads inside one handler call
  are collapsed to the single `now` parameter.
* The module-level mutable caches become explicit state values threaded
  through the handler functions, which also report whether the upstream
  was contacted during the call.
-/

deriving instance DecidableEq for Except

namespace BitAuto

/-- A JavaScript number: a finite rational, or `NaN` / `±Infinity`. -/
inductive JSNum where
  | nan
  | posInf
  | negInf
  | fin (q : ℚ)
deriving DecidableEq

/-- `Number.isFinite` on the embedded JavaScript numbers. -/
def JSNum.isFinite : JSNum → Bool
  | .fin _ => true
  | _ => false

/-- The `unknown` input of `parseNumber` (`server.ts` line 91): per the
spec it is a string or a number. -/
inductive JSValue where
  | str (s : String)
  | num (n : JSNum)

/-- Numeric value of a digit character. -/
def digitVal (c : Char) : Nat := c.toNat - '0'.toNat

/-- Value of a digit string read in base 10. -/
def digitsToNat (ds : List Char) : Nat :=
  ds.foldl (fun acc c => 10 * acc + digitVal c) 0

/-- Sign handling of `Number.parseFloat`: an optional leading `+`/`-`.
Returns (isNegative, remaining characters). -/
def splitSign : List Char → Bool × List Char
  | '-' :: rest => (true, rest)
  | '+' :: rest => (false, rest)
  | cs => (false, cs)

/-- Mantissa of `Number.parseFloat`: digits, an optional decimal point and
more digits; at least one digit must be present overall. Returns the value
and the unconsumed characters. -/
def parseMantissa (cs : List Char) : Option (ℚ × List Char) :=
  let intPart := cs.takeWhile Char.isDigit
  let rest1 := cs.dropWhile Char.isDigit
  let fracSplit : List Char × List Char :=
    match rest1 with
    | '.' :: after => (after.takeWhile Char.isDigit, after.dropWhile Char.isDigit)
    | _ => ([], rest1)
  if intPart = [] ∧ fracSplit.1 = [] then none
  else
    some ((digitsToNat intPart : ℚ) +
            (digitsToNat fracSplit.1 : ℚ) / (10 : ℚ) ^ fracSplit.1.length,
          fracSplit.2)

/-- Exponent tail of `Number.parseFloat` after `e`/`E`: an optional sign
and digits; if no digit follows, the exponent marker is ignored. -/
def parseExpTail (cs : List Char) : Int :=
  let signSplit := splitSign cs
  let ds := signSplit.2.takeWhile Char.isDigit
  if ds = [] then 0
  else if signSplit.1 then -(digitsToNat ds : Int) else (digitsToNat ds : Int)

/-- Optional exponent part of `Number.parseFloat`. -/
def parseExponent (cs : List Char) : Int :=
  match cs with
  | 'e' :: rest => parseExpTail rest
  | 'E' :: rest => parseExpTail rest
  | _ => 0

/-- Scale a rational by a power of ten. -/
def applyExp (q : ℚ) (e : Int) : ℚ :=
  if 0 ≤ e then q * (10 : ℚ) ^ e.toNat else q / (10 : ℚ) ^ (-e).toNat

/-- `Number.parseFloat`: skip leading whitespace, read an optional sign,
then either a leading `Infinity` or a decimal mantissa with optional
exponent; the longest numeric prefix is used and trailing garbage is
ignored; if no numeric prefix exists the result is `NaN`. -/
def jsParseFloat (s : String) : JSNum :=
  let cs := s.toList.dropWhile Char.isWhitespace
  let signSplit := splitSign cs
  if signSplit.2.take 8 = "Infinity".toList then
    if signSplit.1 then .negInf else .posInf
  else
    match parseMantissa signSplit.2 with
    | none => .nan
    | some mr =>
      let v := applyExp mr.1 (parseExponent mr.2)
      .fin (if signSplit.1 then -v else v)

/-- The coercion on `parseNumber`'s input (`server.ts` line 92):
`typeof value === "string" ? Number.parseFloat(value) : Number(value)`;
`Number` on a number is the identity. -/
def coerceToNumber : JSValue → JSNum
  | .str s => jsParseFloat s
  | .num n => n

/-- `parseNumber` (`server.ts` lines 91-97, and its copy in
`apps/web/app/api/cron/check/route.ts`): coerce, throw
`Invalid <label> value` unless the result is finite, else return it. -/
def parseNumber (v : JSValue) (label : String) : Except String ℚ :=
  match coerceToNumber v with
  | .fin q => .ok q
  | .nan => .error ("Invalid " ++ label ++ " value")
  | .posInf => .error ("Invalid " ++ label ++ " value")
  | .negInf => .error ("Invalid " ++ label ++ " value")

/-- The risk levels of `server.ts` line 45. -/
inductive RiskLevel where
  | OK
  | WARN
  | DANGER
deriving DecidableEq

/-- Reason string pushed when the funding-rate threshold is hit. -/
def fundingReason : String := "Funding rate is elevated"

/-- Reason string pushed when the open-interest jump threshold is hit. -/
def oiReason : String := "Open interest jumped >= 10%"

/-- Result record of `computeRisk`. -/
structure RiskAssessment where
  level : RiskLevel
  reasons : List String
deriving DecidableEq

/-- `computeRisk` (`server.ts` lines 99-115). `prev` is the optional
`prevOpenInterest`; the JavaScript guard `typeof prev === "number" &&
prev > 0` becomes presence of the option plus positivity. The two
`reasons.push` calls become the ordered list concatenation, funding
reason first. -/
def computeRisk (fundingRate openInterest : ℚ) (prev : Option ℚ) : RiskAssessment :=
  let fundingWarn : Bool := decide ((5 / 10000 : ℚ) ≤ |fundingRate|)
  let oiWarn : Bool :=
    match prev with
    | some p =>
        if 0 < p then decide ((1 / 10 : ℚ) ≤ (openInterest - p) / p) else false
    | none => false
  let reasons : List String :=
    (if fundingWarn then [fundingReason] else []) ++
      (if oiWarn then [oiReason] else [])
  let level : RiskLevel :=
    if fundingWarn && oiWarn then .DANGER
    else if fundingWarn || oiWarn then .WARN
    else .OK
  ⟨level, reasons⟩

/-- Loop body of `fetchFxRate` (`server.ts` lines 129-140): the first
argument is the `lastError` accumulator, the second the per-provider
outcomes (fetch + parse of `rates.KRW`) in provider order. A success
returns immediately; a failure is remembered and the next provider is
tried. After the loop (`server.ts` line 142) the last error is thrown,
or a generic `FX rate unavailable` error when no provider ran. -/
def fxFromResults : Option String → List (Except String ℚ) → Except String ℚ
  | lastError, [] => .error (lastError.getD "FX rate unavailable")
  | _, .ok rate :: _ => .ok rate
  | _, .error e :: rest => fxFromResults (some e) rest

/-- `fetchFxRate` (`server.ts` lines 126-143), with the network abstracted
into the list of per-provider outcomes. -/
def fetchFxRate (results : List (Except String ℚ)) : Except String ℚ :=
  fxFromResults none results

/-- `CACHE_TTL_MS` (`server.ts` line 8). -/
def CACHE_TTL_MS : Nat := 5000

/-- The refreshable part of the spot-price cache entry: the `price` and
`fetchedAt` fields of `cache.value` (`server.ts` lines 164-171); the
constant `symbol`/`currency`/`source` fields are omitted. -/
structure PriceValue where
  price : ℚ
  fetchedAt : Nat
deriving DecidableEq

/-- The module-level `cache` object (`server.ts` lines 33-43). -/
structure CacheState where
  value : Option PriceValue
  fetchedAt : Nat
  expiresAt : Nat
deriving DecidableEq

/-- The initial cache (`server.ts` lines 39-43). -/
def initCache : CacheState := ⟨none, 0, 0⟩

/-- The `PricePayload` fields that vary per response
(`server.ts` lines 23-31). -/
structure PricePayload where
  price : ℚ
  cached : Bool
  stale : Bool
  fetchedAt : Nat
deriving DecidableEq

/-- One call's outcome: the returned payload or the propagated error, the
cache state after the call, and whether the upstream was contacted. -/
structure PriceOutcome where
  result : Except String PricePayload
  state : CacheState
  calledUpstream : Bool
deriving DecidableEq

/-- The `try`/`catch` part of `fetchBtcPrice` (`server.ts` lines 156-188):
on upstream success store the new value with `expiresAt = fetchedAt +
CACHE_TTL_MS`; on failure fall back to the previous value if one exists,
else rethrow. -/
def refreshBtc (s : CacheState) (now : Nat) (upstream : Except String ℚ) :
    PriceOutcome :=
  match upstream with
  | .ok price =>
      ⟨.ok ⟨price, false, false, now⟩,
        ⟨some ⟨price, now⟩, now, now + CACHE_TTL_MS⟩, true⟩
  | .error e =>
      match s.value with
      | some v => ⟨.ok ⟨v.price, true, true, s.fetchedAt⟩, s, true⟩
      | none => ⟨.error e, s, true⟩

/-- `fetchBtcPrice` (`server.ts` lines 145-189): serve the cached value
while `now < expiresAt`, otherwise refresh. The two `Date.now()` reads in
one call are collapsed into `now`; `upstream` is `.ok price` when the
fetch succeeded with a finite parsed price, `.error` otherwise. -/
def fetchBtcPrice (s : CacheState) (now : Nat) (upstream : Except String ℚ) :
    PriceOutcome :=
  match s.value with
  | some v =>
      if now < s.expiresAt then
        ⟨.ok ⟨v.price, true, false, s.fetchedAt⟩, s, false⟩
      else refreshBtc s now upstream
  | none => refreshBtc s now upstream

/-- One transition of the spot-price cache: some call to `fetchBtcPrice`
executes at some time against some upstream outcome. -/
inductive ReachableBtc : CacheState → Prop where
  | init : ReachableBtc initCache
  | step (s : CacheState) (now : Nat) (upstream : Except String ℚ) :
      ReachableBtc s → ReachableBtc (fetchBtcPrice s now upstream).state

/-- The fields of `premiumCache.value` (`server.ts` lines 79-89) that
vary; the constant `symbol`/`source` fields are omitted. -/
structure PremiumValue where
  kimchiPremium : ℚ
  coinbasePremium : ℚ
deriving DecidableEq

/-- The module-level `premiumCache` object (`server.ts` lines 85-89). -/
structure PremiumCacheState where
  value : Option PremiumValue
  fetchedAt : Nat
  expiresAt : Nat
deriving DecidableEq

/-- Response payload of `/api/market/premium` (`server.ts` lines 69-77),
varying fields only. -/
structure PremiumPayload where
  kimchiPremium : ℚ
  coinbasePremium : ℚ
  cached : Bool
  stale : Bool
  ts : Nat
deriving DecidableEq

/-- Outcome of one `/api/market/premium` call. -/
structure PremiumOutcome where
  result : Except String PremiumPayload
  state : PremiumCacheState
deriving DecidableEq

/-- The four successfully fetched and parsed inputs of the premium
computation (`server.ts` lines 262-271). -/
structure PremiumInputs where
  upbitKrw : ℚ
  binanceUsd : ℚ
  coinbaseUsd : ℚ
  usdKrw : ℚ
deriving DecidableEq

/-- The `try`/`catch` part of the `/api/market/premium` handler
(`server.ts` lines 261-301): compute the two premiums from the four
inputs, store, and fall back to the previous value on failure. -/
def refreshPremium (s : PremiumCacheState) (now : Nat)
    (fetches : Except String PremiumInputs) : PremiumOutcome :=
  match fetches with
  | .ok i =>
      let kimchiPremium := i.upbitKrw / (i.binanceUsd * i.usdKrw) - 1
      let coinbasePremium := i.coinbaseUsd / i.binanceUsd - 1
      ⟨.ok ⟨kimchiPremium, coinbasePremium, false, false, now⟩,
        ⟨some ⟨kimchiPremium, coinbasePremium⟩, now, now + CACHE_TTL_MS⟩⟩
  | .error e =>
      match s.value with
      | some v => ⟨.ok ⟨v.kimchiPremium, v.coinbasePremium, true, true, s.fetchedAt⟩, s⟩
      | none => ⟨.error e, s⟩

/-- The `/api/market/premium` handler (`server.ts` lines 250-302):
fresh-cache hit or refresh, like the spot-price cache. `fetches` is
`.ok` exactly when all four upstream fetches and parses succeeded. -/
def getPremium (s : PremiumCacheState) (now : Nat)
    (fetches : Except String PremiumInputs) : PremiumOutcome :=
  match s.value with
  | some v =>
      if now < s.expiresAt then
        ⟨.ok ⟨v.kimchiPremium, v.coinbasePremium, true, false, s.fetchedAt⟩, s⟩
      else refreshPremium s now fetches
  | none => refreshPremium s now fetches

namespace WebBtc

/-- `CACHE_TTL_MS` of the web route (`apps/web/app/api/btc/route.ts`
line 4). -/
def CACHE_TTL_MS : Nat := 5000

/-- `STALE_TTL_MS` (`route.ts` line 5): how long past `fetchedAt` the
cached value may still be served as a stale fallback. -/
def STALE_TTL_MS : Nat := 60000

/-- The module-level `cache` of the web route (`route.ts` lines 8-14);
`null` is modelled by the surrounding `Option`. -/
structure PriceCache where
  price : ℚ
  fetchedAt : Nat
  expiresAt : Nat
deriving DecidableEq

/-- A 200-response body of the web route (varying fields only; `warning`
is present exactly on the stale-fallback path, `route.ts` line 93). -/
structure Body where
  price : ℚ
  cached : Bool
  stale : Bool
  fetchedAt : Nat
  warning : Option String
deriving DecidableEq

/-- A response of the web route: 200 with a body, 400 with an error
message, or 502 with an error message. -/
inductive Response where
  | okBody (b : Body)
  | badRequest (msg : String)
  | badGateway (msg : String)
deriving DecidableEq

/-- Outcome of one web `GET` call: response, cache afterwards, and
whether Binance was contacted. -/
structure Outcome where
  response : Response
  state : Option PriceCache
  calledUpstream : Bool
deriving DecidableEq

/-- The 400 message of the symbol guard (`route.ts` line 54). -/
def unsupportedMsg : String := "Unsupported symbol. Only BTC is allowed."

/-- The refresh part of the web route (`route.ts` lines 72-101):
`fetchBinancePrice` stores on success (`route.ts` lines 36-41); the
`catch` serves the stale value only while `now - fetchedAt ≤
STALE_TTL_MS`, else responds 502. -/
def refreshWeb (cache : Option PriceCache) (now : Nat)
    (upstream : Except String ℚ) : Outcome :=
  match upstream with
  | .ok price =>
      ⟨.okBody ⟨price, false, false, now, none⟩,
        some ⟨price, now, now + CACHE_TTL_MS⟩, true⟩
  | .error e =>
      match cache with
      | some c =>
          if now - c.fetchedAt ≤ STALE_TTL_MS then
            ⟨.okBody ⟨c.price, true, true, c.fetchedAt, some e⟩, cache, true⟩
          else ⟨.badGateway e, cache, true⟩
      | none => ⟨.badGateway e, cache, true⟩

/-- The cache path of the web route (`route.ts` lines 59-101): fresh hit
or refresh. -/
def cachePath (cache : Option PriceCache) (now : Nat)
    (upstream : Except String ℚ) : Outcome :=
  match cache with
  | some c =>
      if now < c.expiresAt then
        ⟨.okBody ⟨c.price, true, false, c.fetchedAt, none⟩, cache, false⟩
      else refreshWeb cache now upstream
  | none => refreshWeb cache now upstream

/-- The web `GET` handler (`route.ts` lines 49-102). `symbol` is
`searchParams.get("symbol")`: `none` when the parameter is absent, its
string value otherwise. The JavaScript guard `symbol && symbol !== "BTC"`
is truthiness-sensitive: the empty string is falsy and falls through to
the cache path. -/
def GET (symbol : Option String) (cache : Option PriceCache) (now : Nat)
    (upstream : Except String ℚ) : Outcome :=
  match symbol with
  | some s =>
      if s ≠ "" ∧ s ≠ "BTC" then ⟨.badRequest unsupportedMsg, cache, false⟩
      else cachePath cache now upstream
  | none => cachePath cache now upstream

end WebBtc

namespace CronCheck

/-- `COOLDOWN_MS` (`apps/web/app/api/cron/check/route.ts` line 4). -/
def COOLDOWN_MS : Nat := 10 * 60 * 1000

/-- `alertKey` (`cron/check/route.ts` lines 18-21) builds the key from
`level + ":" + reasons.join("|")` and hashes it with SHA-256; the digest
is used only as a `Map` key, so it is modelled by the preimage string
itself (the hash is injective for this purpose). -/
def alertKey (level : String) (reasons : List String) : String :=
  level ++ ":" ++ String.intercalate "|" reasons

/-- `lastAlerts.get` on the association-list model of the `Map`
(`cron/check/route.ts` line 12). -/
def mapGet (m : List (String × Nat)) (k : String) : Option Nat :=
  (m.find? (fun p => p.1 == k)).map (fun p => p.2)

/-- `lastAlerts.set`: replace the binding for `k` or append it. -/
def mapSet (m : List (String × Nat)) (k : String) (t : Nat) :
    List (String × Nat) :=
  match m with
  | [] => [(k, t)]
  | p :: rest => if p.1 == k then (k, t) :: rest else p :: mapSet rest k t

/-- The JSON body of a successful alert-check response
(`cron/check/route.ts` lines 70-74), plus the map afterwards. -/
structure AlertOutcome where
  ok : Bool
  alerted : Bool
  lastAlertTs : Option Nat
  state : List (String × Nat)
deriving DecidableEq

/-- The cooldown-gated alert logic of the cron `GET` handler
(`cron/check/route.ts` lines 49-74), given an already-validated risk
`level` and `reasons`. The JavaScript firing test `!last || now - last >=
COOLDOWN_MS` is truthiness-sensitive: a recorded timestamp `0` counts as
absent. -/
def checkAlert (m : List (String × Nat)) (level : String)
    (reasons : List String) (now : Nat) : AlertOutcome :=
  if level = "WARN" ∨ level = "DANGER" then
    let key := alertKey level reasons
    match mapGet m key with
    | none => ⟨true, true, some now, mapSet m key now⟩
    | some last =>
        if last = 0 ∨ COOLDOWN_MS ≤ now - last then
          ⟨true, true, some now, mapSet m key now⟩
        else ⟨true, false, some last, m⟩
  else ⟨true, false, none, m⟩

end CronCheck

/-! Helper lemmas shared by the claim theorems. -/

/-- Helper: a looked-up timestamp is the second component of some entry
of the map. -/
theorem mapGet_mem (m : List (String × Nat)) (k : String) (t : Nat)
    (h : CronCheck.mapGet m k = some t) : ∃ p ∈ m, p.2 = t := by
  unfold CronCheck.mapGet at h
  rcases hf : m.find? (fun p => p.1 == k) with _ | p
  · rw [hf] at h; cases h
  · rw [hf] at h
    simp at h
    exact ⟨p, List.mem_of_find?_eq_some hf, h⟩

/-- Helper: the FX loop skips failing providers and returns the first
success, whatever the accumulated error is. -/
theorem fxFromResults_firstOk (acc : Option String)
    (pre : List (Except String ℚ)) (rate : ℚ) (post : List (Except String ℚ))
    (h : ∀ r ∈ pre, ∃ e, r = .error e) :
    fxFromResults acc (pre ++ .ok rate :: post) = .ok rate := by
  induction pre generalizing acc with
  | nil => simp [fxFromResults]
  | cons r rest ih =>
    obtain ⟨e, rfl⟩ := h r (List.mem_cons_self _ _)
    simpa [fxFromResults] using
      ih (some e) (fun x hx => h x (List.mem_cons_of_mem _ hx))

/-- Helper: when every provider fails, the FX loop ends with the last
provider's error. -/
theorem fxFromResults_allError (acc : Option String)
    (results : List (Except String ℚ)) (e : String)
    (hall : ∀ r ∈ results, ∃ e2, r = .error e2)
    (hlast : results.getLast? = some (.error e)) :
    fxFromResults acc results = .error e := by
  induction results generalizing acc with
  | nil => cases hlast
  | cons r rest ih =>
    obtain ⟨e2, rfl⟩ := hall r (List.mem_cons_self _ _)
    rcases rest with _ | ⟨r2, rest2⟩
    · simp at hlast
      simp [fxFromResults, hlast]
    · rw [List.getLast?_cons_cons] at hlast
      simpa [fxFromResults] using
        ih (some e2) (fun x hx => hall x (List.mem_cons_of_mem _ hx)) hlast

/-- Helper: one `fetchBtcPrice` call either leaves the cache unchanged
or stores a value fetched at `now` expiring at `now + CACHE_TTL_MS`. -/
theorem fetchBtcPrice_state_cases (s : CacheState) (now : Nat)
    (upstream : Except String ℚ) :
    (fetchBtcPrice s now upstream).state = s ∨
    ∃ q, (fetchBtcPrice s now upstream).state =
      ⟨some ⟨q, now⟩, now, now + CACHE_TTL_MS⟩ := by
  rcases hs : s.value with _ | v <;> rcases upstream with e | q
  · simp [fetchBtcPrice, hs, refreshBtc]
  · right; exact ⟨q, by simp [fetchBtcPrice, hs, refreshBtc]⟩
  · by_cases hlt : now < s.expiresAt
    · simp [fetchBtcPrice, hs, hlt, refreshBtc]
    · simp [fetchBtcPrice, hs, hlt, refreshBtc]
  · by_cases hlt : now < s.expiresAt
    · simp [fetchBtcPrice, hs, hlt, refreshBtc]
    · right; exact ⟨q, by simp [fetchBtcPrice, hs, hlt, refreshBtc]⟩

/-! Claim theorems. -/

/-- Claim C1: the freshness-gated fetch cache, as instantiated by
`fetchBtcPrice`. A fresh cached value (`now < expiresAt`) is returned
with `cached = true, stale = false` without calling upstream; otherwise
the refresh runs: on success the cache becomes
`{value, fetchedAt = now, expiresAt = now + CACHE_TTL_MS}` and the value
is returned with `cached = false, stale = false`; on failure a previous
value is returned with `cached = true, stale = true`, and with no
previous value the failure propagates. -/
theorem fetchBtcPrice_contract (s : CacheState) (now : Nat)
    (upstream : Except String ℚ) :
    (∀ v, s.value = some v → now < s.expiresAt →
      fetchBtcPrice s now upstream =
        ⟨.ok ⟨v.price, true, false, s.fetchedAt⟩, s, false⟩)
  ∧ ((s.value = none ∨ s.expiresAt ≤ now) → ∀ price, upstream = .ok price →
      fetchBtcPrice s now upstream =
        ⟨.ok ⟨price, false, false, now⟩,
          ⟨some ⟨price, now⟩, now, now + CACHE_TTL_MS⟩, true⟩)
  ∧ ((s.value = none ∨ s.expiresAt ≤ now) → ∀ e v, upstream = .error e →
      s.value = some v →
      fetchBtcPrice s now upstream =
        ⟨.ok ⟨v.price, true, true, s.fetchedAt⟩, s, true⟩)
  ∧ (∀ e, upstream = .error e → s.value = none →
      fetchBtcPrice s now upstream = ⟨.error e, s, true⟩) := by
  refine ⟨?_, ?_, ?_, ?_⟩
  · intro v hv hlt
    simp [fetchBtcPrice, hv, hlt]
  · rintro h price rfl
    rcases hs : s.value with _ | v
    · simp [fetchBtcPrice, hs, refreshBtc]
    · rcases h with h | h
      · rw [hs] at h; cases h
      · simp [fetchBtcPrice, hs, refreshBtc, Nat.not_lt.mpr h]
  · rintro h e v rfl hv
    rcases h with h | h
    · rw [hv] at h; cases h
    · simp [fetchBtcPrice, hv, refreshBtc, Nat.not_lt.mpr h]
  · rintro e rfl hv
    simp [fetchBtcPrice, hv, refreshBtc]

/-- Witness for C1: a fresh cache hit at a concrete state. -/
theorem fetchBtcPrice_contract_w :
    fetchBtcPrice ⟨some ⟨7, 10⟩, 10, 5010⟩ 12 (.ok 9) =
      ⟨.ok ⟨7, true, false, 10⟩, ⟨some ⟨7, 10⟩, 10, 5010⟩, false⟩ :=
  (fetchBtcPrice_contract ⟨some ⟨7, 10⟩, 10, 5010⟩ 12 (.ok 9)).1
    ⟨7, 10⟩ rfl (by decide)

/-- Claim C2: `computeRisk` warns on funding exactly when
`|fundingRate| ≥ 0.0005`, warns on open interest exactly when a positive
previous value exists and the relative jump is at least `0.10`, grades
`DANGER`/`WARN`/`OK` by how many warn, and lists the funding reason
before the open-interest reason. -/
theorem computeRisk_spec (fr oi : ℚ) (prev : Option ℚ) :
    ((computeRisk fr oi prev).level = .DANGER ↔
      (((5 / 10000 : ℚ) ≤ |fr|) ∧
        ∃ p, prev = some p ∧ 0 < p ∧ (1 / 10 : ℚ) ≤ (oi - p) / p))
  ∧ ((computeRisk fr oi prev).level = .WARN ↔
      ((((5 / 10000 : ℚ) ≤ |fr|) ∧
          ¬ ∃ p, prev = some p ∧ 0 < p ∧ (1 / 10 : ℚ) ≤ (oi - p) / p) ∨
       (¬ ((5 / 10000 : ℚ) ≤ |fr|) ∧
          ∃ p, prev = some p ∧ 0 < p ∧ (1 / 10 : ℚ) ≤ (oi - p) / p)))
  ∧ ((computeRisk fr oi prev).level = .OK ↔
      (¬ ((5 / 10000 : ℚ) ≤ |fr|) ∧
        ¬ ∃ p, prev = some p ∧ 0 < p ∧ (1 / 10 : ℚ) ≤ (oi - p) / p))
  ∧ ((computeRisk fr oi prev).reasons =
      (if (5 / 10000 : ℚ) ≤ |fr| then [fundingReason] else []) ++
        (if ∃ p, prev = some p ∧ 0 < p ∧ (1 / 10 : ℚ) ≤ (oi - p) / p
          then [oiReason] else [])) := by
  rcases prev with _ | p
  · by_cases hf : (5 / 10000 : ℚ) ≤ |fr| <;>
      simp [computeRisk, hf]
  · by_cases hf : (5 / 10000 : ℚ) ≤ |fr| <;>
      by_cases hp : (0 : ℚ) < p <;>
      by_cases hc : ((10 : ℚ))⁻¹ ≤ (oi - p) / p <;>
      simp [computeRisk, hf, hp, hc]

/-- Counterexample for C3: the claim quantifies over every cache-backed
endpoint, but the web `/api/btc` route bounds the stale fallback by
`STALE_TTL_MS`: a value fetched 70 seconds ago is answered with a 502
when upstream fails, not with a stale-cache response. -/
theorem stale_fallback_cex :
    (WebBtc.GET none (some ⟨100, 0, 5000⟩) 70000 (.error "down")).response =
      WebBtc.Response.badGateway "down" := by
  decide

/-- Claim C3 (amended): on the API server (`fetchBtcPrice`) an expired
cached value of any age is served as a stale fallback when the refresh
fails; on the web `/api/btc` route such a value is served only while
`now - fetchedAt ≤ STALE_TTL_MS` (60000 ms) and answered with a 502
beyond that. -/
theorem stale_fallback_policy :
    (∀ (s : CacheState) (v : PriceValue) (now : Nat) (e : String),
      s.value = some v → s.expiresAt ≤ now →
      fetchBtcPrice s now (.error e) =
        ⟨.ok ⟨v.price, true, true, s.fetchedAt⟩, s, true⟩)
  ∧ (∀ (c : WebBtc.PriceCache) (now : Nat) (e : String),
      c.expiresAt ≤ now →
      (now - c.fetchedAt ≤ WebBtc.STALE_TTL_MS →
        WebBtc.GET none (some c) now (.error e) =
          ⟨.okBody ⟨c.price, true, true, c.fetchedAt, some e⟩, some c, true⟩)
      ∧ (WebBtc.STALE_TTL_MS < now - c.fetchedAt →
        WebBtc.GET none (some c) now (.error e) =
          ⟨.badGateway e, some c, true⟩)) := by
  constructor
  · intro s v now e hv hle
    simp [fetchBtcPrice, hv, refreshBtc, Nat.not_lt.mpr hle]
  · intro c now e hle
    constructor
    · intro hst
      simp [WebBtc.GET, WebBtc.cachePath, WebBtc.refreshWeb,
        Nat.not_lt.mpr hle, hst]
    · intro hst
      simp [WebBtc.GET, WebBtc.cachePath, WebBtc.refreshWeb,
        Nat.not_lt.mpr hle, Nat.not_le.mpr hst]

/-- Witness for the amended C3: a very old server-side value is still
served stale, while a 70-second-old web-route value yields a 502. -/
theorem stale_fallback_policy_w :
    fetchBtcPrice ⟨some ⟨7, 10⟩, 10, 5010⟩ 999999999 (.error "down") =
      ⟨.ok ⟨7, true, true, 10⟩, ⟨some ⟨7, 10⟩, 10, 5010⟩, true⟩ ∧
    WebBtc.GET none (some ⟨7, 10, 5010⟩) 70010 (.error "down") =
      ⟨.badGateway "down", some ⟨7, 10, 5010⟩, true⟩ :=
  ⟨stale_fallback_policy.1 ⟨some ⟨7, 10⟩, 10, 5010⟩ ⟨7, 10⟩ 999999999 "down"
      rfl (by decide),
   (stale_fallback_policy.2 ⟨7, 10, 5010⟩ 70010 "down" (by decide)).2
      (by decide)⟩

/-- Claim C4: an alert fires iff the level is `WARN`/`DANGER` and the
key either has no record or its record is at least the 10-minute
cooldown old; firing updates the record to `now` and reports
`alerted = true`; suppression leaves the map unchanged and reports the
prior record; level `OK` touches nothing. The hypothesis restricts to
maps whose recorded timestamps are positive, which holds of every map
the handler builds from real `Date.now()` values (a recorded `0` would
be treated as absent by the JavaScript truthiness test). -/
theorem checkAlert_spec (m : List (String × Nat)) (level : String)
    (reasons : List String) (now : Nat)
    (hpos : ∀ p ∈ m, 0 < p.2) :
    ((CronCheck.checkAlert m level reasons now).alerted = true ↔
      ((level = "WARN" ∨ level = "DANGER") ∧
        (CronCheck.mapGet m (CronCheck.alertKey level reasons) = none ∨
         ∃ last,
           CronCheck.mapGet m (CronCheck.alertKey level reasons) = some last ∧
           CronCheck.COOLDOWN_MS ≤ now - last)))
  ∧ ((CronCheck.checkAlert m level reasons now).alerted = true →
      (CronCheck.checkAlert m level reasons now).state =
        CronCheck.mapSet m (CronCheck.alertKey level reasons) now ∧
      (CronCheck.checkAlert m level reasons now).lastAlertTs = some now)
  ∧ ((level = "WARN" ∨ level = "DANGER") →
      (CronCheck.checkAlert m level reasons now).alerted = false →
      (CronCheck.checkAlert m level reasons now).state = m ∧
      (CronCheck.checkAlert m level reasons now).lastAlertTs =
        CronCheck.mapGet m (CronCheck.alertKey level reasons))
  ∧ (¬ (level = "WARN" ∨ level = "DANGER") →
      (CronCheck.checkAlert m level reasons now).state = m ∧
      (CronCheck.checkAlert m level reasons now).alerted = false ∧
      (CronCheck.checkAlert m level reasons now).lastAlertTs = none) := by
  by_cases hel : level = "WARN" ∨ level = "DANGER"
  · rcases hg : CronCheck.mapGet m (CronCheck.alertKey level reasons)
      with _ | last
    · simp [CronCheck.checkAlert, hel, hg]
    · have hlast : 0 < last := by
        obtain ⟨p, hp, hpt⟩ := mapGet_mem m _ last hg
        exact hpt ▸ hpos p hp
      by_cases hcd : CronCheck.COOLDOWN_MS ≤ now - last
      · simp [CronCheck.checkAlert, hel, hg, hcd,
          Nat.pos_iff_ne_zero.mp hlast]
      · simp [CronCheck.checkAlert, hel, hg, hcd,
          Nat.pos_iff_ne_zero.mp hlast]
  · simp [CronCheck.checkAlert, hel]

/-- Witness for C4: with a record from one minute ago an identical WARN
call is suppressed; eleven minutes after the record it fires again. -/
theorem checkAlert_spec_w :
    (CronCheck.checkAlert
        [(CronCheck.alertKey "WARN" [fundingReason], 1000)]
        "WARN" [fundingReason] 61000).alerted = false ∧
    (CronCheck.checkAlert
        [(CronCheck.alertKey "WARN" [fundingReason], 1000)]
        "WARN" [fundingReason] 661000).alerted = true := by
  constructor
  · have h := (checkAlert_spec
      [(CronCheck.alertKey "WARN" [fundingReason], 1000)]
      "WARN" [fundingReason] 61000 (by decide)).1
    by_contra hc
    simp at hc
    have hmg : CronCheck.mapGet
        [(CronCheck.alertKey "WARN" [fundingReason], 1000)]
        (CronCheck.alertKey "WARN" [fundingReason]) = some 1000 := by decide
    rcases (h.mp hc).2 with h2 | ⟨last, h2, h3⟩
    · rw [hmg] at h2; cases h2
    · rw [hmg] at h2
      have hl := Option.some.inj h2
      subst hl
      exact absurd h3 (by decide)
  · exact (checkAlert_spec
      [(CronCheck.alertKey "WARN" [fundingReason], 1000)]
      "WARN" [fundingReason] 661000 (by decide)).1.mpr
      ⟨Or.inl rfl, Or.inr ⟨1000, by decide, by decide⟩⟩

/-- Claim C5: `fetchFxRate` returns the first provider success, not
consulting later providers, and propagates the last provider's error
when every provider fails. -/
theorem fetchFxRate_spec :
    (∀ (pre : List (Except String ℚ)) (rate : ℚ)
        (post : List (Except String ℚ)),
      (∀ r ∈ pre, ∃ e, r = .error e) →
      fetchFxRate (pre ++ .ok rate :: post) = .ok rate)
  ∧ (∀ (results : List (Except String ℚ)) (e : String),
      (∀ r ∈ results, ∃ e2, r = .error e2) →
      results.getLast? = some (.error e) →
      fetchFxRate results = .error e) := by
  constructor
  · intro pre rate post h
    exact fxFromResults_firstOk none pre rate post h
  · intro results e hall hlast
    exact fxFromResults_allError none results e hall hlast

/-- Witness for C5: providers 1 and 2 fail and provider 3 succeeds, so
the chain returns provider 3's rate; with only failures the last error
is propagated. -/
theorem fetchFxRate_spec_w :
    fetchFxRate [.error "p1 down", .error "p2 down", .ok 1300] = .ok 1300 ∧
    fetchFxRate [.error "p1 down", .error "p2 down"] = .error "p2 down" :=
  ⟨fetchFxRate_spec.1 [.error "p1 down", .error "p2 down"] 1300 [] (by simp),
   fetchFxRate_spec.2 [.error "p1 down", .error "p2 down"] "p2 down"
      (by simp) rfl⟩

/-- Claim C6: on a successful refresh the premium endpoint computes
`kimchiPremium = upbitKrw / (binanceUsd * usdKrw) - 1` and
`coinbasePremium = coinbaseUsd / binanceUsd - 1`; on the spec's instance
(Upbit 140000000 KRW, Binance 100000 USD, FX 1300) the kimchi premium is
exactly `1/13`, within `0.0001` of the quoted `0.0769`. -/
theorem premium_formula (s : PremiumCacheState) (now : Nat)
    (i : PremiumInputs)
    (hmiss : s.value = none ∨ s.expiresAt ≤ now)
    (hb : i.binanceUsd ≠ 0) (hk : i.usdKrw ≠ 0) :
    (getPremium s now (.ok i)).result =
      .ok ⟨i.upbitKrw / (i.binanceUsd * i.usdKrw) - 1,
           i.coinbaseUsd / i.binanceUsd - 1, false, false, now⟩
  ∧ (getPremium ⟨none, 0, 0⟩ 0
        (.ok ⟨140000000, 100000, 100000, 1300⟩)).result =
      .ok ⟨1 / 13, 0, false, false, 0⟩
  ∧ |(1 : ℚ) / 13 - 769 / 10000| < 1 / 10000 := by
  refine ⟨?_, ?_, ?_⟩
  · rcases hs : s.value with _ | v
    · simp [getPremium, refreshPremium, hs]
    · rcases hmiss with h | h
      · rw [hs] at h; cases h
      · simp [getPremium, refreshPremium, hs, Nat.not_lt.mpr h]
  · simp [getPremium, refreshPremium]
    norm_num
  · rw [abs_of_pos (by norm_num)]
    norm_num

/-- Witness for C6: the refresh formula evaluated at the spec's
concrete quadruple. -/
theorem premium_formula_w :
    (getPremium ⟨none, 0, 0⟩ 0
        (.ok ⟨140000000, 100000, 100000, 1300⟩)).result =
      .ok ⟨(140000000 : ℚ) / ((100000 : ℚ) * 1300) - 1,
           (100000 : ℚ) / 100000 - 1, false, false, 0⟩ :=
  (premium_formula ⟨none, 0, 0⟩ 0 ⟨140000000, 100000, 100000, 1300⟩
      (Or.inl rfl) (by simp) (by simp)).1

/-- Claim C7: `parseNumber` returns the coerced value exactly when it is
finite and fails with an error naming the label exactly when it is not;
a returned value is always finite. -/
theorem parseNumber_spec (v : JSValue) (label : String) :
    (∀ q, coerceToNumber v = .fin q → parseNumber v label = .ok q)
  ∧ ((coerceToNumber v).isFinite = false →
      parseNumber v label = .error ("Invalid " ++ label ++ " value"))
  ∧ (∀ q, parseNumber v label = .ok q → coerceToNumber v = .fin q) := by
  rcases hc : coerceToNumber v with _ | _ | _ | q <;>
    simp [parseNumber, hc, JSNum.isFinite]

/-- Witness for C7: a finite numeric input is returned and `NaN` is
rejected with the label in the message. -/
theorem parseNumber_spec_w :
    parseNumber (.num (.fin 3)) "fundingRate" = .ok 3 ∧
    parseNumber (.num .nan) "openInterest" =
      .error ("Invalid " ++ "openInterest" ++ " value") :=
  ⟨(parseNumber_spec (.num (.fin 3)) "fundingRate").1 3 rfl,
   (parseNumber_spec (.num .nan) "openInterest").2.1 rfl⟩

/-- Counterexample for C8: the initial cache state, reachable before any
successful fetch, has `expiresAt = fetchedAt = 0`, so
`expiresAt = fetchedAt + CACHE_TTL_MS` fails there. -/
theorem cache_init_no_invariant :
    ReachableBtc initCache ∧ initCache.value = none ∧
    ¬ initCache.expiresAt = initCache.fetchedAt + CACHE_TTL_MS :=
  ⟨ReachableBtc.init, rfl, by decide⟩

/-- Claim C8 (amended): every reachable state of the spot-price cache is
either still the pristine initial state (no value,
`fetchedAt = expiresAt = 0`) or satisfies
`expiresAt = fetchedAt + CACHE_TTL_MS`; in particular the invariant
holds in every reachable state holding a value. -/
theorem cache_invariant_reachable (s : CacheState) (h : ReachableBtc s) :
    (s.value = none ∧ s.fetchedAt = 0 ∧ s.expiresAt = 0) ∨
    s.expiresAt = s.fetchedAt + CACHE_TTL_MS := by
  induction h with
  | init => exact Or.inl ⟨rfl, rfl, rfl⟩
  | step s now upstream hprev ih =>
    rcases fetchBtcPrice_state_cases s now upstream with heq | ⟨q, heq⟩
    · rw [heq]; exact ih
    · rw [heq]; exact Or.inr rfl

/-- Witness for the amended C8: the state after one successful fetch
from the initial state. -/
theorem cache_invariant_reachable_w :
    ((fetchBtcPrice initCache 100 (.ok 5)).state.value = none ∧
      (fetchBtcPrice initCache 100 (.ok 5)).state.fetchedAt = 0 ∧
      (fetchBtcPrice initCache 100 (.ok 5)).state.expiresAt = 0) ∨
    (fetchBtcPrice initCache 100 (.ok 5)).state.expiresAt =
      (fetchBtcPrice initCache 100 (.ok 5)).state.fetchedAt + CACHE_TTL_MS :=
  cache_invariant_reachable (fetchBtcPrice initCache 100 (.ok 5)).state
    (ReachableBtc.step initCache 100 (.ok 5) ReachableBtc.init)

/-- Claim C9: string inputs are coerced with `Number.parseFloat`, which
parses the numeric prefix and ignores trailing garbage, so
`"12.5abc"` is accepted and yields `12.5`. -/
theorem parseNumber_prefix_garbage :
    parseNumber (.str "12.5abc") "price" = .ok (25 / 2) := by
  have h : jsParseFloat "12.5abc" = JSNum.fin (25 / 2) := by
    have hl : "12.5abc".toList = ['1', '2', '.', '5', 'a', 'b', 'c'] := rfl
    simp +decide [jsParseFloat, hl, splitSign, parseMantissa, parseExponent,
      parseExpTail, applyExp, digitsToNat, digitVal]
    norm_num
  simp [parseNumber, coerceToNumber, h]

/-- Counterexample for C10: a request with `?symbol=` carries a symbol
parameter different from `"BTC"` (the empty string), yet the JavaScript
truthiness guard lets it through: the handler does not answer 400 and
does contact upstream. -/
theorem symbol_guard_cex :
    (WebBtc.GET (some "") none 0 (.ok 10)).response ≠
      WebBtc.Response.badRequest WebBtc.unsupportedMsg ∧
    (WebBtc.GET (some "") none 0 (.ok 10)).calledUpstream = true := by
  constructor
  · intro h
    simp [WebBtc.GET, WebBtc.cachePath, WebBtc.refreshWeb] at h
  · simp [WebBtc.GET, WebBtc.cachePath, WebBtc.refreshWeb]

/-- Claim C10 (amended): a request whose symbol parameter is nonempty
and different from `"BTC"` is answered 400 with the fixed message,
leaving the cache untouched and upstream uncontacted; requests with no
symbol parameter, an empty one, or `symbol=BTC` proceed to the normal
cache path. -/
theorem symbol_guard (s : String) (cache : Option WebBtc.PriceCache)
    (now : Nat) (upstream : Except String ℚ) :
    (s ≠ "" → s ≠ "BTC" →
      WebBtc.GET (some s) cache now upstream =
        ⟨.badRequest WebBtc.unsupportedMsg, cache, false⟩)
  ∧ WebBtc.GET none cache now upstream = WebBtc.cachePath cache now upstream
  ∧ WebBtc.GET (some "BTC") cache now upstream =
      WebBtc.cachePath cache now upstream
  ∧ WebBtc.GET (some "") cache now upstream =
      WebBtc.cachePath cache now upstream := by
  refine ⟨?_, rfl, ?_, ?_⟩
  · intro h1 h2
    simp [WebBtc.GET, h1, h2]
  · simp [WebBtc.GET]
  · simp [WebBtc.GET]

/-- Witness for the amended C10: `symbol=ETH` is rejected with 400. -/
theorem symbol_guard_w :
    WebBtc.GET (some "ETH") none 0 (.ok 10) =
      ⟨.badRequest WebBtc.unsupportedMsg, none, false⟩ :=
  (symbol_guard "ETH" none 0 (.ok 10)).1 (by decide) (by decide)

end BitAuto
